import Mathlib

/-!
Verification development for the escape-room game
(`room.py`, `player.py`, `game.py`, `main.py`, `world_loader.py`).

The Python modules are shallowly embedded: mutable objects become
immutable records, mutation becomes functional update, `raise` becomes
`Option` (with `none` for the raised error), and printed text is
represented by the `Msg` type (one constructor per distinct `print`
call of interest; free-form descriptive output that no property
mentions is not modelled).  Python dictionaries are modelled as
association lists that are updated functionally; Python sets of
strings are modelled as `Finset String`.
-/

/-! ## Python string primitives

The game only ever manipulates ASCII identifiers ("foyer", "north",
"flashlight", ...), so Python `str.lower()` and `str.strip()` are
modelled with ASCII semantics. -/

/-- Model of Python `str.lower()`: lower-case every character. -/
def py_lower (s : String) : String := ⟨s.data.map Char.toLower⟩

/-- Model of Python `str.strip()`: drop leading and trailing whitespace. -/
def py_strip (s : String) : String :=
  ⟨((s.data.dropWhile Char.isWhitespace).reverse.dropWhile Char.isWhitespace).reverse⟩

/-! ## Regular expressions

`Room.try_solve_puzzle` calls `re.fullmatch(pattern, candidate,
flags=re.IGNORECASE)`.  The fragment of Python regular expressions the
game's patterns use (literal characters, `\d`, bounded repetition
`{n}`, alternation, and the anchors `^`/`$`) is embedded as a small
AST with an executable full-match semantics. -/

/-- Regular-expression AST fragment used by the game's puzzle patterns. -/
inductive Regex : Type
  | eps : Regex
  | digit : Regex
  | lit : Char → Regex
  | seq : Regex → Regex → Regex
  | alt : Regex → Regex → Regex
  | bol : Regex
  | eol : Regex
  deriving DecidableEq

/-- `r{n}`: `n`-fold repetition of `r`. -/
def Regex.rep (r : Regex) : Nat → Regex
  | 0 => .eps
  | n + 1 => .seq r (Regex.rep r n)

/-- Matcher: `mAll r atStart s` lists the `(atStart, remainder)`
configurations reachable after `r` consumes a prefix of `s`.  The
boolean records whether the current position is still the beginning of
the subject string (needed for the `^` anchor); `$` requires an empty
remainder.  Literal characters compare case-insensitively, modelling
`re.IGNORECASE`. -/
def mAll : Regex → Bool → List Char → List (Bool × List Char)
  | .eps, start, s => [(start, s)]
  | .digit, _, [] => []
  | .digit, _, c :: rest => if c.isDigit then [(false, rest)] else []
  | .lit _, _, [] => []
  | .lit a, _, c :: rest => if c.toLower = a.toLower then [(false, rest)] else []
  | .seq r1 r2, start, s => (mAll r1 start s).flatMap (fun p => mAll r2 p.1 p.2)
  | .alt r1 r2, start, s => mAll r1 start s ++ mAll r2 start s
  | .bol, start, s => if start then [(start, s)] else []
  | .eol, start, s => if s.isEmpty then [(start, s)] else []

/-- Model of `re.fullmatch(pattern, s, flags=re.IGNORECASE)` viewed as
a boolean: some run of the pattern consumes the whole subject. -/
def re_fullmatch_ci (r : Regex) (s : String) : Bool :=
  (mAll r true s.data).any (fun p => p.2.isEmpty)

/-- The pattern `^\d{3}$` from the spec's pattern-puzzle example. -/
def pat3 : Regex := .seq .bol (.seq (Regex.rep .digit 3) .eol)

/-! ## Messages

One constructor per distinct `print`/returned message of the source
that some property refers to.  The payload of each constructor is the
value interpolated into the corresponding format string. -/

/-- User-visible messages of `room.py` and the `game.py` handlers. -/
inductive Msg : Type
  | noPuzzleHere : Msg
  | alreadySolved : Msg
  | solvedIt : Msg
  | formatMismatch : Msg
  | wrongAnswer : Msg
  | goWhere : Msg
  | cantGoThatWay : String → Msg
  | tooDarkWithoutFlashlight : Msg
  | pickUpFlashlightHint : Msg
  | eastDoorLocked : Msg
  | takeWhat : Msg
  | alreadyPickedUp : String → Msg
  | notHere : String → Msg
  | pickedUp : String → Msg
  | inspectTip : String → Msg
  | hallwayLessScary : Msg
  deriving DecidableEq

/-! ## Puzzles and rooms (`room.py`) -/

/-- A room's puzzle dictionary, normalised to the keys used by
`Room.try_solve_puzzle` and `handle_solve`.

`pattern` holds the parsed regular expression; `none` models both a
missing `"pattern"` key and an empty pattern string, which the source
treats identically (`if pattern:` is false for both).  A missing
`"wrong_responses"` key and an empty list behave identically in
`handle_solve` (`.get("wrong_responses") or []`), so both are
modelled by `[]`; likewise a missing `"lit"` key is read with
`.get("lit", False)` and is modelled by `lit := false`. -/
structure Puzzle where
  question : String := ""
  answer : String := ""
  pattern : Option Regex := none
  solved : Bool := false
  wrong_responses : List String := []
  lit : Bool := false
  deriving DecidableEq

/-- `Room` state: `room.py` lines 43–73. -/
structure Room where
  name : String
  description : String := ""
  exits : List (String × String) := []
  items : Finset String := ∅
  original_items : Finset String := ∅
  visited : Bool := false
  puzzle : Option Puzzle := none
  deriving DecidableEq

/-- Lookup in an association list modelling a Python `dict.get`. -/
def assocGet : List (String × String) → String → Option String
  | [], _ => none
  | p :: t, k => if p.1 = k then some p.2 else assocGet t k

/-- Update-or-insert modelling Python `d[k] = v`. -/
def assocSet (l : List (String × String)) (k v : String) : List (String × String) :=
  if (assocGet l k).isSome then
    l.map (fun p => if p.1 = k then (k, v) else p)
  else
    l ++ [(k, v)]

/-- `Room.add_exit`: `self.exits[direction.lower()] = room_name`. -/
def Room.add_exit (r : Room) (direction room_name : String) : Room :=
  { r with exits := assocSet r.exits (py_lower direction) room_name }

/-- `Room.get_exit`: `return self.exits.get(direction.lower())`. -/
def Room.get_exit (r : Room) (direction : String) : Option String :=
  assocGet r.exits (py_lower direction)

/-- `Room.add_item`: `self.items.add(item)`. -/
def Room.add_item (r : Room) (item : String) : Room :=
  { r with items := insert item r.items }

/-- `Room.remove_item`: raises `ValueError` (modelled by `none`) when
the item is absent, otherwise removes it.  Returning `none` leaves the
caller's `Room` value untouched, which models the fact that the Python
method raises before mutating. -/
def Room.remove_item (r : Room) (item : String) : Option Room :=
  if item ∈ r.items then some { r with items := r.items.erase item } else none

/-- `Room.has_item`: `return item in self.items`. -/
def Room.has_item (r : Room) (item : String) : Bool :=
  item ∈ r.items

/-- `Room.has_puzzle`: `return bool(self.puzzle) and not self.puzzle.get("solved")`. -/
def Room.has_puzzle (r : Room) : Bool :=
  match r.puzzle with
  | none => false
  | some pz => !pz.solved

/-- `Room.try_solve_puzzle` (`room.py` lines 218–250), returning the
`(success, message)` pair of the source together with the updated room. -/
def Room.try_solve_puzzle (r : Room) (user_answer : String) : Bool × Msg × Room :=
  match r.puzzle with
  | none => (false, Msg.noPuzzleHere, r)
  | some pz =>
    if pz.solved then
      (true, Msg.alreadySolved, r)
    else
      match pz.pattern with
      | some pat =>
        if re_fullmatch_ci pat (py_strip user_answer) then
          (true, Msg.solvedIt, { r with puzzle := some { pz with solved := true } })
        else
          (false, Msg.formatMismatch, r)
      | none =>
        let expected := py_lower (py_strip pz.answer)
        if py_lower (py_strip user_answer) = expected ∧ expected ≠ "" then
          (true, Msg.solvedIt, { r with puzzle := some { pz with solved := true } })
        else
          (false, Msg.wrongAnswer, r)

/-! ## Player (`player.py`) -/

/-- `Player` state: current location and carried items. -/
structure Player where
  location : String
  inventory : Finset String := ∅
  deriving DecidableEq

/-- `Player.move_to`: unconditional location overwrite. -/
def Player.move_to (p : Player) (room_name : String) : Player :=
  { p with location := room_name }

/-- `Player.add_item`: `self.inventory.add(item)`. -/
def Player.add_item (p : Player) (item : String) : Player :=
  { p with inventory := insert item p.inventory }

/-- `Player.remove_item`: raises `ValueError` (modelled by `none`)
when the item is absent, otherwise removes it; `none` leaves the
caller's `Player` value untouched, as the Python method raises before
mutating. -/
def Player.remove_item (p : Player) (item : String) : Option Player :=
  if item ∈ p.inventory then some { p with inventory := p.inventory.erase item } else none

/-- `Player.has_item`: `return item in self.inventory`. -/
def Player.has_item (p : Player) (item : String) : Bool :=
  item ∈ p.inventory

/-! ## Game state and command handlers (`game.py`)

The `rooms` dictionary of `run_game` is modelled as an association
list from room names to `Room` records; in-place mutation of a room
object becomes a keyed functional update.  Handlers return the updated
state together with the list of modelled messages they print;
`describe_current_room`'s free-form description output is not
modelled (no property mentions it), but its side effect on the
`visited` flag is.  A failing dictionary lookup `rooms[player.location]`
would raise `KeyError` in Python and end the run; it is modelled as
leaving the state unchanged. -/

/-- The full game state handled by the `game.py` command loop. -/
structure GameState where
  rooms : List (String × Room)
  player : Player
  deriving DecidableEq

/-- `rooms[name]` (read). -/
def lookupRoom : List (String × Room) → String → Option Room
  | [], _ => none
  | p :: t, name => if p.1 = name then some p.2 else lookupRoom t name

/-- `rooms[name] = r` — mutation of the room object stored under `name`. -/
def updateRoom : List (String × Room) → String → Room → List (String × Room)
  | [], _, _ => []
  | p :: t, name, r => (if p.1 = name then (name, r) else p) :: updateRoom t name r

/-- State effect of `describe_current_room` (`game.py` lines 94–132):
mark the current room visited on first display.  Printed description
text is not modelled. -/
def describe_current_room (gs : GameState) : GameState :=
  match lookupRoom gs.rooms gs.player.location with
  | none => gs
  | some room =>
    if !room.visited then
      { gs with rooms := updateRoom gs.rooms gs.player.location { room with visited := true } }
    else
      gs

/-- `handle_go` (`game.py` lines 135–176). -/
def handle_go (gs : GameState) (args : List String) : GameState × List Msg :=
  match args with
  | [] => (gs, [Msg.goWhere])
  | a :: _ =>
    let direction := py_lower a
    match lookupRoom gs.rooms gs.player.location with
    | none => (gs, [])
    | some current =>
      match current.get_exit direction with
      | none => (gs, [Msg.cantGoThatWay direction])
      | some next_room_name =>
        -- `if not next_room_name:` is also true for an empty target name
        if next_room_name = "" then
          (gs, [Msg.cantGoThatWay direction])
        else if current.name = "foyer" ∧ direction = "north" ∧
            ¬ gs.player.has_item "flashlight" then
          (gs, Msg.tooDarkWithoutFlashlight ::
            (if current.has_item "flashlight" then [Msg.pickUpFlashlightHint] else []))
        else if current.has_puzzle ∧ current.name = "hallway" ∧ direction = "east" then
          (gs, [Msg.eastDoorLocked])
        else
          (describe_current_room { gs with player := gs.player.move_to next_room_name }, [])

/-- `handle_take` (`game.py` lines 179–215). -/
def handle_take (gs : GameState) (args : List String) : GameState × List Msg :=
  match args with
  | [] => (gs, [Msg.takeWhat])
  | a :: _ =>
    let item := py_lower a
    match lookupRoom gs.rooms gs.player.location with
    | none => (gs, [])
    | some room =>
      if ¬ room.has_item item then
        if gs.player.has_item item then
          (gs, [Msg.alreadyPickedUp item])
        else
          (gs, [Msg.notHere item])
      else
        let room' := { room with items := room.items.erase item }
        let gs' := { gs with
          rooms := updateRoom gs.rooms gs.player.location room',
          player := gs.player.add_item item }
        (gs', Msg.pickedUp item :: Msg.inspectTip item ::
          (if item = "flashlight" ∧ gs.player.location = "foyer" then
            [Msg.hallwayLessScary] else []))

/-- `handle_solve` (`game.py` lines 331–417).  The single line read
from the player inside the handler is passed as `input1`; the boolean
result is `true` exactly when the handler returns `"WIN"`.  Printed
flavour text (including the random choice among `wrong_responses`) is
not modelled: it does not affect the game state. -/
def handle_solve (gs : GameState) (input1 : String) : GameState × Bool :=
  match lookupRoom gs.rooms gs.player.location with
  | none => (gs, false)
  | some room =>
    if ¬ room.has_puzzle then
      (gs, false)
    else if room.name = "study" then
      match room.puzzle with
      | none => (gs, false)  -- unreachable: `has_puzzle` implies a puzzle is present
      | some pz =>
        if ¬ pz.lit then
          -- Stage 1: `answer == "flashlight"` with the flashlight carried
          if py_lower (py_strip input1) = "flashlight" ∧ gs.player.has_item "flashlight" then
            let room' := { room with puzzle := some { pz with lit := true } }
            ({ gs with rooms := updateRoom gs.rooms gs.player.location room' }, false)
          else
            (gs, false)
        else
          -- Stage 2: the window puzzle; success wins the game
          let res := room.try_solve_puzzle (py_strip input1)
          ({ gs with rooms := updateRoom gs.rooms gs.player.location res.2.2 }, res.1)
    else
      let res := room.try_solve_puzzle (py_strip input1)
      ({ gs with rooms := updateRoom gs.rooms gs.player.location res.2.2 }, false)

/-- One iteration of the command loop's dispatch (`game.py` lines
480–512).  `look`, `inventory`, `inspect`, `help`, `time` and
unrecognised verbs only print; `quit` ends the loop; none of them
change the game state. -/
inductive Cmd : Type
  | go : List String → Cmd
  | take : List String → Cmd
  | solve : String → Cmd
  | inspect : List String → Cmd
  | look : Cmd
  | inventory : Cmd
  | help : Cmd
  | time : Cmd
  | quit : Cmd
  | unknown : Cmd
  deriving DecidableEq

/-- State transition of one dispatched command. -/
def step (gs : GameState) (c : Cmd) : GameState :=
  match c with
  | .go args => (handle_go gs args).1
  | .take args => (handle_take gs args).1
  | .solve input1 => (handle_solve gs input1).1
  | .inspect _ => gs
  | .look => gs
  | .inventory => gs
  | .help => gs
  | .time => gs
  | .quit => gs
  | .unknown => gs

/-- The states visited by a run of the command loop. -/
def runCmds (gs : GameState) (cs : List Cmd) : GameState :=
  cs.foldl step gs

/-! ## World construction and startup (`game.py`, `world_loader.py`, `main.py`) -/

/-- One entry of the world file's `"rooms"` mapping.  `puzzle := none`
models an absent `"puzzle"` key (`r.get("puzzle")` yields `None`);
`some ""` models a present but empty id — both are falsy in
`if puzzle_id:`. -/
structure RoomDef where
  description : String := ""
  exits : List (String × String) := []
  items : List String := []
  puzzle : Option String := none
  deriving DecidableEq

/-- One entry of the world file's `"puzzles"` mapping, with `none` for
absent keys.  `pattern` holds the parsed regular expression of the
pattern string; `none` models an absent or empty pattern string (the
normalised dict's `p.get("pattern", "")` default is falsy either
way). -/
structure PuzzleDef where
  question : Option String := none
  answer : Option String := none
  pattern : Option Regex := none
  wrong_responses : Option (List String) := none
  deriving DecidableEq

/-- An entirely empty puzzle definition dict `{}`, which is falsy in
`if p:`. -/
def PuzzleDef.isEmpty (p : PuzzleDef) : Bool :=
  p.question = none ∧ p.answer = none ∧ p.pattern = none ∧ p.wrong_responses = none

/-- The parsed world file. -/
structure WorldData where
  rooms : List (String × RoomDef) := []
  puzzles : List (String × PuzzleDef) := []
  start_room : String := ""
  deriving DecidableEq

/-- `puzzles.get(puzzle_id, None)`. -/
def lookupPuzzleDef : List (String × PuzzleDef) → String → Option PuzzleDef
  | [], _ => none
  | p :: t, pid => if p.1 = pid then some p.2 else lookupPuzzleDef t pid

/-- Second pass of `build_rooms`: attach the normalised puzzle dict to
one room when its `puzzle` id is truthy and resolves to a non-empty
definition. -/
def attachPuzzle (puzzles : List (String × PuzzleDef)) (rooms : List (String × Room))
    (entry : String × RoomDef) : List (String × Room) :=
  match entry.2.puzzle with
  | none => rooms
  | some pid =>
    if pid = "" then rooms
    else
      match lookupPuzzleDef puzzles pid with
      | none => rooms
      | some p =>
        if p.isEmpty then rooms
        else
          match lookupRoom rooms entry.1 with
          | none => rooms
          | some room =>
            let pdict : Puzzle :=
              { question := p.question.getD "",
                answer := p.answer.getD "",
                pattern := p.pattern,
                solved := false,
                wrong_responses := p.wrong_responses.getD [] }
            updateRoom rooms entry.1 { room with puzzle := some pdict }

/-- First pass of `build_rooms`: the `Room` constructed from a world
entry, without a puzzle attached. -/
def firstPassRoom (n : String) (rd : RoomDef) : Room :=
  { name := n,
    description := rd.description,
    exits := rd.exits,
    items := rd.items.toFinset,
    original_items := rd.items.toFinset,
    visited := false,
    puzzle := none }

/-- `build_rooms` (`game.py` lines 47–91): first pass creates the
rooms without puzzles, second pass attaches normalised puzzle dicts. -/
def build_rooms (w : WorldData) : List (String × Room) :=
  let base := w.rooms.map (fun e => (e.1, firstPassRoom e.1 e.2))
  w.rooms.foldl (attachPuzzle w.puzzles) base

/-- The game state as created by `run_game` just before the command
loop starts. -/
def initState (w : WorldData) : GameState :=
  { rooms := build_rooms w, player := { location := w.start_room, inventory := ∅ } }

/-- Outcome of loading the world file in `run_game`: the file may be
missing (`FileNotFoundError`), unparseable (`json.JSONDecodeError`,
caught by the generic `except Exception`), or parsed successfully. -/
inductive LoadResult : Type
  | fileNotFound : LoadResult
  | parseError : LoadResult
  | ok : WorldData → LoadResult
  deriving DecidableEq

/-- Observable outcome of one process run. -/
structure RunOutcome where
  exitCode : Nat
  playerCreated : Bool
  loopStarted : Bool
  deriving DecidableEq

/-- Whether startup loading failed: file missing or unparseable, or
`start_room` absent, empty, or not a key of the built rooms. -/
def loadFailed (lr : LoadResult) : Bool :=
  match lr with
  | .fileNotFound => true
  | .parseError => true
  | .ok w => w.start_room = "" ∨ lookupRoom (build_rooms w) w.start_room = none

/-- Process-level model of `run_game` (`game.py` lines 421–512) under
`main` (`main.py`): every branch of `run_game` catches its exception
or returns normally — load failures print a diagnostic and `return` —
and `main` never calls `sys.exit`, so the interpreter always exits
with code 0.  The command loop starts, with a `Player` created, only
when loading succeeded and the start room is valid. -/
def run_game (lr : LoadResult) : RunOutcome :=
  match lr with
  | .fileNotFound => { exitCode := 0, playerCreated := false, loopStarted := false }
  | .parseError => { exitCode := 0, playerCreated := false, loopStarted := false }
  | .ok w =>
    if w.start_room = "" ∨ lookupRoom (build_rooms w) w.start_room = none then
      { exitCode := 0, playerCreated := false, loopStarted := false }
    else
      { exitCode := 0, playerCreated := true, loopStarted := true }

/-! ## Derived state predicates -/

/-- The room's puzzle `solved` flag (`False` when there is no puzzle). -/
def solvedFlag (r : Room) : Bool :=
  match r.puzzle with
  | none => false
  | some pz => pz.solved

/-- The state produced by a successful `take`: the item moves from the
current room to the player's inventory. -/
def takeResult (gs : GameState) (room : Room) (item : String) : GameState :=
  let room' := { room with items := room.items.erase item }
  { gs with rooms := updateRoom gs.rooms gs.player.location room',
            player := gs.player.add_item item }

/-- The state produced by stage 1 of the study flow in `handle_solve`:
the puzzle's `lit` flag turns on. -/
def litResult (gs : GameState) (room : Room) (pz : Puzzle) : GameState :=
  let room' := { room with puzzle := some { pz with lit := true } }
  { gs with rooms := updateRoom gs.rooms gs.player.location room' }

/-- The state produced when `handle_solve` delegates to
`Room.try_solve_puzzle` on the current room. -/
def solveResult (gs : GameState) (room : Room) (answer : String) : GameState :=
  { gs with rooms := updateRoom gs.rooms gs.player.location (room.try_solve_puzzle answer).2.2 }

/-- The spec's inventory invariant: an item carried by the player is
not also present in any room. -/
def invInventoryDisjoint (gs : GameState) : Prop :=
  ∀ i ∈ gs.player.inventory, ∀ n room, lookupRoom gs.rooms n = some room → i ∉ room.items

/-- Auxiliary invariant: no item name is present in two distinct
rooms. -/
def invItemUnique (gs : GameState) : Prop :=
  ∀ i n1 r1 n2 r2, lookupRoom gs.rooms n1 = some r1 → lookupRoom gs.rooms n2 = some r2 →
    i ∈ r1.items → i ∈ r2.items → n1 = n2

/-! ## Concrete states used to instantiate the properties -/

/-- A room holding the spec's example pattern puzzle `^\d{3}$`. -/
def vaultRoom : Room :=
  { name := "vault", puzzle := some { question := "3 digits", pattern := some pat3 } }

/-- A room with an already-solved exact-answer puzzle. -/
def solvedRoom : Room :=
  { name := "door", puzzle := some { question := "Code?", answer := "429", solved := true } }

/-- A room whose exact-answer puzzle has a whitespace-only stored answer. -/
def blankAnswerRoom : Room :=
  { name := "cell", puzzle := some { question := "???", answer := "  " } }

/-- A room whose exits dictionary stores a capitalised direction key. -/
def capsExitRoom : Room :=
  { name := "attic", exits := [("North", "hallway")] }

/-- The foyer/hallway scenario of the spec: the foyer holds a
flashlight and its north exit leads to the hallway. -/
def foyerRoom : Room :=
  { name := "foyer", description := "Entry",
    exits := [("north", "hallway")],
    items := {"flashlight"}, original_items := {"flashlight"} }

/-- The hallway of the scenario. -/
def hallwayRoom : Room :=
  { name := "hallway", description := "Corridor", exits := [("south", "foyer")] }

/-- Scenario state: player in the foyer, nothing carried. -/
def foyerState : GameState :=
  { rooms := [("foyer", foyerRoom), ("hallway", hallwayRoom)],
    player := { location := "foyer" } }

/-- Scenario state after `take flashlight`. -/
def foyerStateLit : GameState :=
  { rooms := [("foyer", { foyerRoom with items := ∅ }), ("hallway", hallwayRoom)],
    player := { location := "foyer", inventory := {"flashlight"} } }

/-- A room whose items set stores a capitalised item name. -/
def capsItemRoom : Room :=
  { name := "shed", items := {"Key"}, original_items := {"Key"} }

/-- State used to refute the literal reading of the take property. -/
def capsItemState : GameState :=
  { rooms := [("shed", capsItemRoom)], player := { location := "shed" } }

/-- A world in which two distinct rooms both contain the item `key`. -/
def dupItemWorld : WorldData :=
  { rooms := [("a", { items := ["key"], exits := [("east", "b")] }),
              ("b", { items := ["key"] })],
    start_room := "a" }

/-- A world whose single room references the dangling puzzle id
`ghost`, and whose puzzle `blank` maps to an empty definition. -/
def danglingPuzzleWorld : WorldData :=
  { rooms := [("study", { description := "Dusty books", puzzle := some "ghost" }),
              ("cellar", { description := "Damp", puzzle := some "blank" })],
    puzzles := [("blank", {})],
    start_room := "study" }

/-- The `Room` built for room `b` of `dupItemWorld`. -/
def dupRoomB : Room :=
  { name := "b", items := {"key"}, original_items := {"key"} }

/-- A state whose single room carries an already-solved puzzle. -/
def solvedState : GameState :=
  { rooms := [("door", solvedRoom)], player := { location := "door" } }

/-- A one-room world holding a single `key`, with no duplicates. -/
def simpleWorld : WorldData :=
  { rooms := [("a", { items := ["key"] })], start_room := "a" }

/-- A player carrying a key, for the inventory-removal property. -/
def keyPlayer : Player :=
  { location := "foyer", inventory := {"key"} }

/-- A room holding a key, for the room-removal property. -/
def keyRoom : Room :=
  { name := "shed", items := {"key"}, original_items := {"key"} }

/-! # Lemmas -/

theorem char_toLower_idem (c : Char) : Char.toLower (Char.toLower c) = Char.toLower c := by
  unfold Char.toLower
  by_cases h : c.toNat ≥ 65 ∧ c.toNat ≤ 90
  · simp only [if_pos h]
    obtain ⟨h1, h2⟩ := h
    generalize c.toNat = n at h1 h2
    interval_cases n <;> decide
  · simp only [if_neg h]

theorem py_lower_idem (s : String) : py_lower (py_lower s) = py_lower s := by
  simp [py_lower, List.map_map, Function.comp_def, char_toLower_idem]

theorem py_lower_eq_empty_iff (s : String) : py_lower s = "" ↔ s = "" := by
  constructor
  · intro h
    cases s with
    | mk data =>
      cases data with
      | nil => rfl
      | cons c cs => simp [py_lower, String.ext_iff] at h
  · intro h; subst h; rfl

theorem lookupRoom_updateRoom (rooms : List (String × Room)) (k : String) (r : Room)
    (m : String) :
    lookupRoom (updateRoom rooms k r) m =
      if m = k then (lookupRoom rooms k).map (fun _ => r) else lookupRoom rooms m := by
  induction rooms with
  | nil =>
    by_cases hmk : m = k <;> simp [lookupRoom, updateRoom, hmk]
  | cons a t ih =>
    obtain ⟨a1, a2⟩ := a
    by_cases hak : a1 = k <;> by_cases hmk : m = k <;> by_cases ham : a1 = m <;>
      simp_all [lookupRoom, updateRoom]

theorem lookupRoom_updateRoom_self (rooms : List (String × Room)) (k : String)
    (r0 r : Room) (h : lookupRoom rooms k = some r0) :
    lookupRoom (updateRoom rooms k r) k = some r := by
  simp [lookupRoom_updateRoom, h]

theorem lookupRoom_updateRoom_ne (rooms : List (String × Room)) (k m : String)
    (r : Room) (h : m ≠ k) :
    lookupRoom (updateRoom rooms k r) m = lookupRoom rooms m := by
  simp [lookupRoom_updateRoom, h]

theorem try_solve_puzzle_frame (r : Room) (c : String) :
    (r.try_solve_puzzle c).2.2.name = r.name ∧
    (r.try_solve_puzzle c).2.2.description = r.description ∧
    (r.try_solve_puzzle c).2.2.exits = r.exits ∧
    (r.try_solve_puzzle c).2.2.items = r.items ∧
    (r.try_solve_puzzle c).2.2.original_items = r.original_items ∧
    (r.try_solve_puzzle c).2.2.visited = r.visited := by
  rcases h : r.puzzle with _ | pz
  · simp [Room.try_solve_puzzle, h]
  · simp only [Room.try_solve_puzzle, h]
    split
    · simp
    · split <;> split <;> simp

theorem try_solve_puzzle_already_solved (r : Room) (pz : Puzzle) (c : String)
    (hpz : r.puzzle = some pz) (hs : pz.solved = true) :
    r.try_solve_puzzle c = (true, Msg.alreadySolved, r) := by
  simp [Room.try_solve_puzzle, hpz, hs]

theorem try_solve_puzzle_solved_mono (r : Room) (c : String)
    (h : solvedFlag r = true) :
    solvedFlag (r.try_solve_puzzle c).2.2 = true := by
  rcases hpz : r.puzzle with _ | pz
  · simp [solvedFlag, hpz] at h
  · have hs : pz.solved = true := by simpa [solvedFlag, hpz] using h
    rw [try_solve_puzzle_already_solved r pz c hpz hs]
    simpa [solvedFlag, hpz] using h

theorem describe_current_room_player (gs : GameState) :
    (describe_current_room gs).player = gs.player := by
  unfold describe_current_room
  rcases h : lookupRoom gs.rooms gs.player.location with _ | room <;> simp
  split <;> simp

theorem describe_current_room_lookup (gs : GameState) (n : String) (room : Room)
    (h : lookupRoom gs.rooms n = some room) :
    ∃ room', lookupRoom (describe_current_room gs).rooms n = some room' ∧
      room'.puzzle = room.puzzle ∧ room'.items = room.items ∧
      room'.name = room.name ∧ room'.exits = room.exits := by
  unfold describe_current_room
  rcases hl : lookupRoom gs.rooms gs.player.location with _ | cur
  · exact ⟨room, by simp [h]⟩
  · by_cases hv : cur.visited
    · exact ⟨room, by simp [hv, h]⟩
    · simp only [hv, Bool.not_false, if_pos]
      by_cases hn : n = gs.player.location
      · subst hn
        have : cur = room := by rw [h] at hl; exact (Option.some.inj hl).symm
        subst this
        exact ⟨{ cur with visited := true },
          lookupRoom_updateRoom_self _ _ cur _ h, rfl, rfl, rfl, rfl⟩
      · exact ⟨room, by rw [lookupRoom_updateRoom_ne _ _ _ _ hn]; exact h, rfl, rfl, rfl, rfl⟩


theorem handle_go_cases (gs : GameState) (args : List String) :
    (handle_go gs args).1 = gs ∨
    ∃ nm, (handle_go gs args).1 =
      describe_current_room { gs with player := gs.player.move_to nm } := by
  cases args with
  | nil => exact Or.inl rfl
  | cons a rest =>
    simp only [handle_go]
    split
    · exact Or.inl rfl
    · split
      · exact Or.inl rfl
      · split
        · exact Or.inl rfl
        · split
          · exact Or.inl rfl
          · split
            · exact Or.inl rfl
            · exact Or.inr ⟨_, rfl⟩

theorem handle_take_cases (gs : GameState) (args : List String) :
    (handle_take gs args).1 = gs ∨
    ∃ a rest room, args = a :: rest ∧
      lookupRoom gs.rooms gs.player.location = some room ∧
      room.has_item (py_lower a) = true ∧
      (handle_take gs args).1 = takeResult gs room (py_lower a) := by
  cases args with
  | nil => exact Or.inl rfl
  | cons a rest =>
    simp only [handle_take]
    split
    · exact Or.inl rfl
    · rename_i room hl
      split
      · split
        · exact Or.inl rfl
        · exact Or.inl rfl
      · rename_i hni
        refine Or.inr ⟨a, rest, room, rfl, hl, ?_, rfl⟩
        revert hni
        simp

theorem handle_solve_cases (gs : GameState) (input1 : String) :
    (handle_solve gs input1).1 = gs ∨
    (∃ room pz, lookupRoom gs.rooms gs.player.location = some room ∧
      room.puzzle = some pz ∧ (handle_solve gs input1).1 = litResult gs room pz) ∨
    (∃ room, lookupRoom gs.rooms gs.player.location = some room ∧
      (handle_solve gs input1).1 = solveResult gs room (py_strip input1)) := by
  simp only [handle_solve]
  split
  · exact Or.inl rfl
  · rename_i room hl
    split
    · exact Or.inl rfl
    · split
      · split
        · exact Or.inl rfl
        · rename_i pz hpz
          split
          · split
            · exact Or.inr (Or.inl ⟨room, pz, hl, hpz, rfl⟩)
            · exact Or.inl rfl
          · exact Or.inr (Or.inr ⟨room, hl, rfl⟩)
      · exact Or.inr (Or.inr ⟨room, hl, rfl⟩)

theorem solvedFlag_congr (r r' : Room) (h : r'.puzzle = r.puzzle) :
    solvedFlag r' = solvedFlag r := by
  unfold solvedFlag
  rw [h]

theorem update_items_map (rooms : List (String × Room)) (k : String) (room r' : Room)
    (hl : lookupRoom rooms k = some room) (hit : r'.items = room.items) (n : String) :
    Option.map Room.items (lookupRoom (updateRoom rooms k r') n) =
      Option.map Room.items (lookupRoom rooms n) := by
  rw [lookupRoom_updateRoom]
  by_cases hn : n = k
  · simp [hn, hl, hit]
  · simp [hn]

theorem describe_rooms_items (gs : GameState) (n : String) :
    Option.map Room.items (lookupRoom (describe_current_room gs).rooms n) =
      Option.map Room.items (lookupRoom gs.rooms n) := by
  unfold describe_current_room
  split
  · rfl
  · rename_i room hl
    split
    · exact update_items_map gs.rooms gs.player.location room
        { room with visited := true } hl rfl n
    · rfl

theorem inv_transfer (gs gs' : GameState)
    (hinv : gs'.player.inventory = gs.player.inventory)
    (hroom : ∀ n, Option.map Room.items (lookupRoom gs'.rooms n) =
      Option.map Room.items (lookupRoom gs.rooms n)) :
    (invInventoryDisjoint gs → invInventoryDisjoint gs') ∧
    (invItemUnique gs → invItemUnique gs') := by
  have key : ∀ n room', lookupRoom gs'.rooms n = some room' →
      ∃ room, lookupRoom gs.rooms n = some room ∧ room'.items = room.items := by
    intro n room' hr'
    have hmap := hroom n
    rw [hr'] at hmap
    rcases hold : lookupRoom gs.rooms n with _ | room
    · rw [hold] at hmap
      simp at hmap
    · rw [hold] at hmap
      simp only [Option.map] at hmap
      exact ⟨room, rfl, Option.some.inj hmap⟩
  constructor
  · intro h1 i hi n room' hr'
    rcases key n room' hr' with ⟨room, hold, hit⟩
    rw [hit]
    exact h1 i (hinv ▸ hi) n room hold
  · intro h2 i n1 r1 n2 r2 hr1 hr2 hi1 hi2
    rcases key n1 r1 hr1 with ⟨s1, ho1, e1⟩
    rcases key n2 r2 hr2 with ⟨s2, ho2, e2⟩
    exact h2 i n1 s1 n2 s2 ho1 ho2 (e1 ▸ hi1) (e2 ▸ hi2)

theorem take_lookup_shape (gs : GameState) (room : Room) (t : String)
    (hl : lookupRoom gs.rooms gs.player.location = some room)
    (n : String) (r' : Room)
    (hr' : lookupRoom (takeResult gs room t).rooms n = some r') :
    (n = gs.player.location ∧ r' = { room with items := room.items.erase t }) ∨
    (¬ n = gs.player.location ∧ lookupRoom gs.rooms n = some r') := by
  simp only [takeResult] at hr'
  rw [lookupRoom_updateRoom] at hr'
  by_cases hn : n = gs.player.location
  · rw [if_pos hn, hl] at hr'
    simp only [Option.map] at hr'
    exact Or.inl ⟨hn, (Option.some.inj hr').symm⟩
  · rw [if_neg hn] at hr'
    exact Or.inr ⟨hn, hr'⟩

theorem take_preserves_inv (gs : GameState) (room : Room) (t : String)
    (hl : lookupRoom gs.rooms gs.player.location = some room)
    (hi : t ∈ room.items)
    (h1 : invInventoryDisjoint gs) (h2 : invItemUnique gs) :
    invInventoryDisjoint (takeResult gs room t) ∧ invItemUnique (takeResult gs room t) := by
  constructor
  · intro i hmem n room' hr'
    simp only [takeResult, Player.add_item, Finset.mem_insert] at hmem
    rcases take_lookup_shape gs room t hl n room' hr' with ⟨hn, he⟩ | ⟨hn, hold⟩
    · rw [he]
      rcases hmem with hit | hinv
      · rw [hit]
        exact Finset.not_mem_erase t room.items
      · intro hcontra
        exact h1 i hinv gs.player.location room hl (Finset.mem_of_mem_erase hcontra)
    · rcases hmem with hit | hinv
      · rw [hit]
        intro hcontra
        exact hn (h2 t n room' gs.player.location room hold hl hcontra hi)
      · exact h1 i hinv n room' hold
  · intro i n1 r1 n2 r2 hr1 hr2 hi1 hi2
    have reduce : ∀ n r', lookupRoom (takeResult gs room t).rooms n = some r' →
        i ∈ r'.items → ∃ s, lookupRoom gs.rooms n = some s ∧ i ∈ s.items := by
      intro n r' hr hir
      rcases take_lookup_shape gs room t hl n r' hr with ⟨hn, he⟩ | ⟨_, hold⟩
      · rw [he] at hir
        exact ⟨room, hn ▸ hl, Finset.mem_of_mem_erase hir⟩
      · exact ⟨r', hold, hir⟩
    rcases reduce n1 r1 hr1 hi1 with ⟨s1, hs1, his1⟩
    rcases reduce n2 r2 hr2 hi2 with ⟨s2, hs2, his2⟩
    exact h2 i n1 s1 n2 s2 hs1 hs2 his1 his2

theorem step_preserves_inv (gs : GameState) (c : Cmd)
    (h1 : invInventoryDisjoint gs) (h2 : invItemUnique gs) :
    invInventoryDisjoint (step gs c) ∧ invItemUnique (step gs c) := by
  cases c with
  | go args =>
    simp only [step]
    rcases handle_go_cases gs args with hg | ⟨nm, hg⟩
    · rw [hg]
      exact ⟨h1, h2⟩
    · rw [hg]
      have tr := inv_transfer gs
        (describe_current_room { gs with player := gs.player.move_to nm })
        (by rw [describe_current_room_player]; rfl)
        (fun n => describe_rooms_items { gs with player := gs.player.move_to nm } n)
      exact ⟨tr.1 h1, tr.2 h2⟩
  | take args =>
    simp only [step]
    rcases handle_take_cases gs args with ht | ⟨a, rest, room, _, hl, hhas, ht⟩
    · rw [ht]
      exact ⟨h1, h2⟩
    · rw [ht]
      have him : py_lower a ∈ room.items := by simpa [Room.has_item] using hhas
      exact take_preserves_inv gs room (py_lower a) hl him h1 h2
  | solve input1 =>
    simp only [step]
    rcases handle_solve_cases gs input1 with hs | ⟨room, pz, hl, _, hs⟩ | ⟨room, hl, hs⟩
    · rw [hs]
      exact ⟨h1, h2⟩
    · rw [hs]
      have tr := inv_transfer gs (litResult gs room pz) rfl
        (fun n => update_items_map gs.rooms gs.player.location room
          { room with puzzle := some { pz with lit := true } } hl rfl n)
      exact ⟨tr.1 h1, tr.2 h2⟩
    · rw [hs]
      have tr := inv_transfer gs (solveResult gs room (py_strip input1)) rfl
        (fun n => update_items_map gs.rooms gs.player.location room
          (room.try_solve_puzzle (py_strip input1)).2.2 hl
          (try_solve_puzzle_frame room (py_strip input1)).2.2.2.1 n)
      exact ⟨tr.1 h1, tr.2 h2⟩
  | inspect args => exact ⟨h1, h2⟩
  | look => exact ⟨h1, h2⟩
  | inventory => exact ⟨h1, h2⟩
  | help => exact ⟨h1, h2⟩
  | time => exact ⟨h1, h2⟩
  | quit => exact ⟨h1, h2⟩
  | unknown => exact ⟨h1, h2⟩

theorem runCmds_preserves_inv (gs : GameState) (cs : List Cmd)
    (h1 : invInventoryDisjoint gs) (h2 : invItemUnique gs) :
    invInventoryDisjoint (runCmds gs cs) ∧ invItemUnique (runCmds gs cs) := by
  induction cs generalizing gs with
  | nil => exact ⟨h1, h2⟩
  | cons c cs ih =>
    have h := step_preserves_inv gs c h1 h2
    simpa only [runCmds, List.foldl_cons] using ih (step gs c) h.1 h.2

theorem step_solved_mono (gs : GameState) (c : Cmd) (n : String) (room : Room)
    (h : lookupRoom gs.rooms n = some room) (hs : solvedFlag room = true) :
    ∃ room', lookupRoom (step gs c).rooms n = some room' ∧ solvedFlag room' = true := by
  cases c with
  | go args =>
    simp only [step]
    rcases handle_go_cases gs args with hg | ⟨nm, hg⟩
    · rw [hg]
      exact ⟨room, h, hs⟩
    · rw [hg]
      rcases describe_current_room_lookup { gs with player := gs.player.move_to nm }
        n room h with ⟨room', hr', hpz, _⟩
      exact ⟨room', hr', (solvedFlag_congr room room' hpz) ▸ hs⟩
  | take args =>
    simp only [step]
    rcases handle_take_cases gs args with ht | ⟨a, rest, roomT, _, hl, _, ht⟩
    · rw [ht]
      exact ⟨room, h, hs⟩
    · rw [ht]
      by_cases hn : n = gs.player.location
      · have hTeq : roomT = room := by
          rw [hn] at h
          rw [h] at hl
          exact (Option.some.inj hl).symm
        subst hTeq
        refine ⟨{ roomT with items := roomT.items.erase (py_lower a) }, ?_, hs⟩
        simp only [takeResult]
        rw [lookupRoom_updateRoom, if_pos hn, hl]
        rfl
      · refine ⟨room, ?_, hs⟩
        simp only [takeResult]
        rw [lookupRoom_updateRoom, if_neg hn]
        exact h
  | solve input1 =>
    simp only [step]
    rcases handle_solve_cases gs input1 with hsv | ⟨roomS, pz, hl, hpz, hsv⟩ |
      ⟨roomS, hl, hsv⟩
    · rw [hsv]
      exact ⟨room, h, hs⟩
    · rw [hsv]
      by_cases hn : n = gs.player.location
      · have hSeq : roomS = room := by
          rw [hn] at h
          rw [h] at hl
          exact (Option.some.inj hl).symm
        subst hSeq
        refine ⟨{ roomS with puzzle := some { pz with lit := true } }, ?_, ?_⟩
        · simp only [litResult]
          rw [lookupRoom_updateRoom, if_pos hn, hl]
          rfl
        · have : pz.solved = true := by
            simpa [solvedFlag, hpz] using hs
          simpa [solvedFlag] using this
      · refine ⟨room, ?_, hs⟩
        simp only [litResult]
        rw [lookupRoom_updateRoom, if_neg hn]
        exact h
    · rw [hsv]
      by_cases hn : n = gs.player.location
      · have hSeq : roomS = room := by
          rw [hn] at h
          rw [h] at hl
          exact (Option.some.inj hl).symm
        subst hSeq
        refine ⟨(roomS.try_solve_puzzle (py_strip input1)).2.2, ?_, ?_⟩
        · simp only [solveResult]
          rw [lookupRoom_updateRoom, if_pos hn, hl]
          rfl
        · exact try_solve_puzzle_solved_mono roomS (py_strip input1) hs
      · refine ⟨room, ?_, hs⟩
        simp only [solveResult]
        rw [lookupRoom_updateRoom, if_neg hn]
        exact h
  | inspect args => exact ⟨room, h, hs⟩
  | look => exact ⟨room, h, hs⟩
  | inventory => exact ⟨room, h, hs⟩
  | help => exact ⟨room, h, hs⟩
  | time => exact ⟨room, h, hs⟩
  | quit => exact ⟨room, h, hs⟩
  | unknown => exact ⟨room, h, hs⟩

theorem assocGet_mem (l : List (String × String)) (k v : String)
    (h : assocGet l k = some v) : (k, v) ∈ l := by
  induction l with
  | nil => simp [assocGet] at h
  | cons p t ih =>
    obtain ⟨p1, p2⟩ := p
    by_cases hk : p1 = k
    · subst hk
      simp only [assocGet, if_pos rfl] at h
      rw [← Option.some.inj h]
      exact List.mem_cons_self _ _
    · simp only [assocGet, if_neg hk] at h
      exact List.mem_cons_of_mem _ (ih h)

theorem keys_nodup_mem_eq (l : List (String × RoomDef)) (n : String) (a b : RoomDef)
    (hnodup : (l.map Prod.fst).Nodup) (ha : (n, a) ∈ l) (hb : (n, b) ∈ l) : a = b := by
  induction l with
  | nil => simp at ha
  | cons p t ih =>
    simp only [List.map_cons, List.nodup_cons] at hnodup
    rcases List.mem_cons.mp ha with ha' | ha'
    · rcases List.mem_cons.mp hb with hb' | hb'
      · rw [← ha'] at hb'
        simpa using congrArg Prod.snd hb'.symm
      · exfalso
        have h1 : n ∈ List.map Prod.fst t := by
          simpa using List.mem_map_of_mem Prod.fst hb'
        have h2 : p.1 = n := by rw [← ha']
        apply hnodup.1
        rw [h2]
        exact h1
    · rcases List.mem_cons.mp hb with hb' | hb'
      · exfalso
        have h1 : n ∈ List.map Prod.fst t := by
          simpa using List.mem_map_of_mem Prod.fst ha'
        have h2 : p.1 = n := by rw [← hb']
        apply hnodup.1
        rw [h2]
        exact h1
      · exact ih hnodup.2 ha' hb'

theorem lookupRoom_base (l : List (String × RoomDef)) (n : String) (rd : RoomDef)
    (hnodup : (l.map Prod.fst).Nodup) (hmem : (n, rd) ∈ l) :
    lookupRoom (l.map (fun e => (e.1, firstPassRoom e.1 e.2))) n =
      some (firstPassRoom n rd) := by
  induction l with
  | nil => simp at hmem
  | cons p t ih =>
    obtain ⟨p1, p2⟩ := p
    by_cases hk : p1 = n
    · subst hk
      have hrd : p2 = rd :=
        keys_nodup_mem_eq ((p1, p2) :: t) p1 p2 rd hnodup
          (List.mem_cons_self _ _) hmem
      subst hrd
      simp [lookupRoom]
    · simp only [List.map_cons, List.nodup_cons] at hnodup
      have hmem' : (n, rd) ∈ t := by
        rcases List.mem_cons.mp hmem with h | h
        · exfalso
          apply hk
          exact (congrArg Prod.fst h).symm
        · exact h
      simp only [List.map_cons, lookupRoom, if_neg hk]
      exact ih hnodup.2 hmem'

theorem attachPuzzle_lookup_ne (puzzles : List (String × PuzzleDef))
    (rooms : List (String × Room)) (e : String × RoomDef) (n : String)
    (hne : ¬ e.1 = n) :
    lookupRoom (attachPuzzle puzzles rooms e) n = lookupRoom rooms n := by
  unfold attachPuzzle
  split
  · rfl
  · split
    · rfl
    · split
      · rfl
      · split
        · rfl
        · split
          · rfl
          · exact lookupRoom_updateRoom_ne rooms e.1 n _ (fun h => hne h.symm)

theorem attachPuzzle_skip (puzzles : List (String × PuzzleDef))
    (rooms : List (String × Room)) (n : String) (rd : RoomDef) (pid : String)
    (hpid : rd.puzzle = some pid) (hpid' : ¬ pid = "")
    (hdangling : lookupPuzzleDef puzzles pid = none ∨
      ∃ p, lookupPuzzleDef puzzles pid = some p ∧ p.isEmpty = true) :
    attachPuzzle puzzles rooms (n, rd) = rooms := by
  unfold attachPuzzle
  simp only [hpid]
  rw [if_neg hpid']
  rcases hdangling with hd | ⟨p, hd, hemp⟩
  · rw [hd]
  · rw [hd]
    simp only [hemp, if_pos]

theorem foldl_attach_lookup (puzzles : List (String × PuzzleDef))
    (l : List (String × RoomDef)) (acc : List (String × Room)) (n : String)
    (h : ∀ e ∈ l, ∀ a, lookupRoom (attachPuzzle puzzles a e) n = lookupRoom a n) :
    lookupRoom (l.foldl (attachPuzzle puzzles) acc) n = lookupRoom acc n := by
  induction l generalizing acc with
  | nil => rfl
  | cons e t ih =>
    simp only [List.foldl_cons]
    rw [ih (attachPuzzle puzzles acc e) (fun x hx a => h x (List.mem_cons_of_mem e hx) a)]
    exact h e (List.mem_cons_self e t) acc

/-! # Claims -/

/-- C1: for every room whose puzzle's `solved` flag is true,
`try_solve_puzzle` returns success with the distinct already-solved
indicator for any candidate (including the empty string and the
original answer), independent of the candidate and with no state
change; and no `Room` operation (`add_exit`, `add_item`,
`remove_item`, `try_solve_puzzle`) nor any game-controller command
ever turns a room's `solved` flag from true back to false. -/
theorem c1_solved_state_is_final :
    (∀ (room : Room) (pz : Puzzle) (cand : String),
      room.puzzle = some pz → pz.solved = true →
      room.try_solve_puzzle cand = (true, Msg.alreadySolved, room)) ∧
    (∀ (room : Room) (d t i : String),
      (room.add_exit d t).puzzle = room.puzzle ∧
      (room.add_item i).puzzle = room.puzzle ∧
      (∀ r', room.remove_item i = some r' → r'.puzzle = room.puzzle)) ∧
    (∀ (gs : GameState) (c : Cmd) (n : String) (room : Room),
      lookupRoom gs.rooms n = some room → solvedFlag room = true →
      ∃ room', lookupRoom (step gs c).rooms n = some room' ∧ solvedFlag room' = true) := by
  refine ⟨try_solve_puzzle_already_solved, ?_, step_solved_mono⟩
  intro room d t i
  refine ⟨rfl, rfl, ?_⟩
  intro r' h
  unfold Room.remove_item at h
  split at h
  · rw [← Option.some.inj h]
  · exact Option.noConfusion h

/-- Witness for C1 at a concrete solved room and game state. -/
theorem c1_witness :
    solvedRoom.try_solve_puzzle "" = (true, Msg.alreadySolved, solvedRoom) ∧
    solvedRoom.try_solve_puzzle "429" = (true, Msg.alreadySolved, solvedRoom) ∧
    ∃ room', lookupRoom (step solvedState (Cmd.solve "429")).rooms "door" = some room' ∧
      solvedFlag room' = true :=
  ⟨c1_solved_state_is_final.1 solvedRoom
     { question := "Code?", answer := "429", solved := true } "" rfl rfl,
   c1_solved_state_is_final.1 solvedRoom
     { question := "Code?", answer := "429", solved := true } "429" rfl rfl,
   c1_solved_state_is_final.2.2 solvedState (Cmd.solve "429") "door" solvedRoom
     (by decide) (by decide)⟩

/-- C2: for an unsolved puzzle that defines a pattern,
`try_solve_puzzle` succeeds and sets `solved` exactly when the
candidate, stripped of surrounding whitespace, matches the pattern as
a full-string case-insensitive regular-expression match; otherwise it
fails with the format-mismatch message and changes nothing.  For the
pattern `^\d{3}$`, the candidates `123` and `  123  ` succeed while
`12a` and `1234` fail. -/
theorem c2_pattern_matching :
    (∀ (room : Room) (pz : Puzzle) (pat : Regex) (cand : String),
      room.puzzle = some pz → pz.solved = false → pz.pattern = some pat →
      (re_fullmatch_ci pat (py_strip cand) = true →
        room.try_solve_puzzle cand =
          (true, Msg.solvedIt, { room with puzzle := some { pz with solved := true } })) ∧
      (re_fullmatch_ci pat (py_strip cand) = false →
        room.try_solve_puzzle cand = (false, Msg.formatMismatch, room))) ∧
    (vaultRoom.try_solve_puzzle "123").1 = true ∧
    solvedFlag (vaultRoom.try_solve_puzzle "123").2.2 = true ∧
    (vaultRoom.try_solve_puzzle "  123  ").1 = true ∧
    (vaultRoom.try_solve_puzzle "12a").1 = false ∧
    (vaultRoom.try_solve_puzzle "12a").2.2 = vaultRoom ∧
    (vaultRoom.try_solve_puzzle "1234").1 = false ∧
    (vaultRoom.try_solve_puzzle "1234").2.2 = vaultRoom := by
  constructor
  · intro room pz pat cand hpz hsol hpat
    constructor
    · intro hm
      simp [Room.try_solve_puzzle, hpz, hsol, hpat, hm]
    · intro hm
      simp [Room.try_solve_puzzle, hpz, hsol, hpat, hm]
  · exact ⟨by decide, by decide, by decide, by decide, by decide, by decide, by decide⟩

/-- Witness for C2 at the `^\d{3}$` room and the candidate `123`. -/
theorem c2_witness :
    vaultRoom.try_solve_puzzle "123" =
      (true, Msg.solvedIt, { vaultRoom with puzzle := some { question := "3 digits", pattern := some pat3, solved := true } }) :=
  (c2_pattern_matching.1 vaultRoom { question := "3 digits", pattern := some pat3 }
    pat3 "123" rfl rfl rfl).1 (by decide)

/-- C3: in exact-answer mode (no pattern), a stored answer that strips
to the empty string can never be satisfied — every candidate fails
with the wrong-answer message, the room is unchanged, and no sequence
of attempts ever solves the puzzle; in general, success happens
exactly when the stripped, lower-cased candidate equals the stripped,
lower-cased stored answer and that stripped stored answer is
non-empty. -/
theorem c3_exact_answer_mode :
    ∀ (room : Room) (pz : Puzzle) (cand : String),
      room.puzzle = some pz → pz.solved = false → pz.pattern = none →
      (py_strip pz.answer = "" →
        room.try_solve_puzzle cand = (false, Msg.wrongAnswer, room)) ∧
      (py_strip pz.answer = "" →
        ∀ cands : List String,
          cands.foldl (fun r c => (r.try_solve_puzzle c).2.2) room = room) ∧
      ((room.try_solve_puzzle cand).1 = true ↔
        (py_lower (py_strip cand) = py_lower (py_strip pz.answer) ∧
          py_strip pz.answer ≠ "")) := by
  intro room pz cand hpz hsol hpat
  have hconv : (¬ py_lower (py_strip pz.answer) = "") ↔ (¬ py_strip pz.answer = "") :=
    not_congr (py_lower_eq_empty_iff _)
  refine ⟨?_, ?_, ?_⟩
  · intro hempty
    have hexp : py_lower (py_strip pz.answer) = "" := by
      rw [hempty]
      decide
    simp [Room.try_solve_puzzle, hpz, hsol, hpat, hexp]
  · intro hempty cands
    have hexp : py_lower (py_strip pz.answer) = "" := by
      rw [hempty]
      decide
    have hstep : ∀ c, (room.try_solve_puzzle c).2.2 = room := by
      intro c
      simp [Room.try_solve_puzzle, hpz, hsol, hpat, hexp]
    induction cands with
    | nil => rfl
    | cons c cs ih =>
      rw [List.foldl_cons, hstep c]
      exact ih
  · simp only [Room.try_solve_puzzle, hpz, hsol, hpat]
    by_cases hc : py_lower (py_strip cand) = py_lower (py_strip pz.answer) ∧
        ¬ py_lower (py_strip pz.answer) = ""
    · rw [if_pos hc]
      constructor
      · intro _
        exact ⟨hc.1, hconv.mp hc.2⟩
      · intro _
        rfl
    · rw [if_neg hc]
      constructor
      · intro h
        exact absurd h (by simp)
      · intro hgood
        exact absurd ⟨hgood.1, hconv.mpr hgood.2⟩ hc

/-- Witness for C3 at a room whose stored answer is whitespace-only,
with the empty candidate. -/
theorem c3_witness :
    blankAnswerRoom.try_solve_puzzle "" = (false, Msg.wrongAnswer, blankAnswerRoom) :=
  (c3_exact_answer_mode blankAnswerRoom { question := "???", answer := "  " } ""
    rfl rfl rfl).1 (by decide)

/-- C8: `Player.remove_item` and `Room.remove_item` raise (modelled by
`none`) exactly when the item is absent; the error path leaves the
state untouched (the Python method raises before mutating, and the
model returns no new state), and the normal path removes exactly the
named item. -/
theorem c8_remove_item_contract (p : Player) (r : Room) (i : String) :
    (p.remove_item i = none ↔ i ∉ p.inventory) ∧
    (i ∈ p.inventory →
      p.remove_item i = some { p with inventory := p.inventory.erase i }) ∧
    (r.remove_item i = none ↔ i ∉ r.items) ∧
    (i ∈ r.items → r.remove_item i = some { r with items := r.items.erase i }) := by
  unfold Player.remove_item Room.remove_item
  by_cases hp : i ∈ p.inventory <;> by_cases hr : i ∈ r.items <;> simp [hp, hr]

/-- Witness for C8: removing a carried key succeeds and removes
exactly it; removing an absent item errors. -/
theorem c8_witness :
    keyPlayer.remove_item "key" =
      some { keyPlayer with inventory := keyPlayer.inventory.erase "key" } ∧
    keyRoom.remove_item "ghost" = none :=
  ⟨(c8_remove_item_contract keyPlayer keyRoom "key").2.1 (by decide),
   (c8_remove_item_contract keyPlayer keyRoom "ghost").2.2.1.mpr (by decide)⟩

/-- C4: with the player in the foyer, whose north exit exists, `go
north` is blocked — location unchanged, contextual hint shown — while
the flashlight is not carried, and moves the player to the exit's
target room once it is. -/
theorem c4_foyer_flashlight_gate (gs : GameState) (room : Room) (target : String)
    (hloc : gs.player.location = "foyer")
    (hl : lookupRoom gs.rooms "foyer" = some room)
    (hname : room.name = "foyer")
    (hexit : room.get_exit "north" = some target)
    (htarget : ¬ target = "") :
    (¬ gs.player.has_item "flashlight" = true →
      (handle_go gs ["north"]).1.player.location = "foyer" ∧
      Msg.tooDarkWithoutFlashlight ∈ (handle_go gs ["north"]).2) ∧
    (gs.player.has_item "flashlight" = true →
      (handle_go gs ["north"]).1.player.location = target) := by
  have hdir : py_lower "north" = "north" := by decide
  have hlook : lookupRoom gs.rooms gs.player.location = some room := by
    rw [hloc]
    exact hl
  have hget : room.get_exit (py_lower "north") = some target := by
    rw [hdir]
    exact hexit
  constructor
  · intro hnofl
    simp only [handle_go]
    split
    · rename_i heq
      rw [hlook] at heq
      exact Option.noConfusion heq
    · rename_i cur heq
      rw [hlook] at heq
      have hcur : cur = room := (Option.some.inj heq).symm
      subst hcur
      split
      · rename_i heq2
        rw [hget] at heq2
        exact Option.noConfusion heq2
      · rename_i nxt heq2
        rw [hget] at heq2
        have hnxt : nxt = target := (Option.some.inj heq2).symm
        subst hnxt
        rw [if_neg htarget, if_pos ⟨hname, hdir, hnofl⟩]
        exact ⟨hloc, List.mem_cons_self _ _⟩
  · intro hfl
    simp only [handle_go]
    split
    · rename_i heq
      rw [hlook] at heq
      exact Option.noConfusion heq
    · rename_i cur heq
      rw [hlook] at heq
      have hcur : cur = room := (Option.some.inj heq).symm
      subst hcur
      split
      · rename_i heq2
        rw [hget] at heq2
        exact Option.noConfusion heq2
      · rename_i nxt heq2
        rw [hget] at heq2
        have hnxt : nxt = target := (Option.some.inj heq2).symm
        subst hnxt
        rw [if_neg htarget, if_neg (fun h => h.2.2 hfl),
          if_neg (fun h => absurd (hname ▸ h.2.1) (by decide))]
        rw [describe_current_room_player]
        rfl

/-- Witness for C4 at the concrete foyer scenario: blocked without
the flashlight, through to the hallway with it. -/
theorem c4_witness :
    ((handle_go foyerState ["north"]).1.player.location = "foyer" ∧
      Msg.tooDarkWithoutFlashlight ∈ (handle_go foyerState ["north"]).2) ∧
    (handle_go foyerStateLit ["north"]).1.player.location = "hallway" :=
  ⟨(c4_foyer_flashlight_gate foyerState foyerRoom "hallway" rfl (by decide) rfl
      (by decide) (by decide)).1 (by decide),
   (c4_foyer_flashlight_gate foyerStateLit { foyerRoom with items := ∅ } "hallway" rfl
      (by decide) rfl (by decide) (by decide)).2 (by decide)⟩

/-- C5 counterexample: a room whose exits dictionary stores the
capitalised key `North`.  `North` names an exit of the room, yet
`get_exit` returns `none` for every casing of the direction —
including the stored spelling itself — because `get_exit` lowercases
the query but not the stored keys.  This refutes the claim that for
every direction naming an exit the target is returned regardless of
letter case. -/
theorem c5_counterexample :
    assocGet capsExitRoom.exits "North" = some "hallway" ∧
    capsExitRoom.get_exit "North" = none ∧
    capsExitRoom.get_exit "north" = none ∧
    capsExitRoom.get_exit "NORTH" = none := by
  decide

/-- C5 (amended): `get_exit` is a pure lookup of the lowercased
direction.  For rooms whose stored exit keys are lowercase (as
`add_exit` guarantees), the lookup is case-insensitive: every casing
of a stored direction returns its target; a direction whose lowercase
form is not a key returns the not-found signal `none`, and `go` with
such a direction leaves the whole game state unchanged. -/
theorem c5_get_exit_amended (room : Room) (d : String)
    (hkeys : ∀ p ∈ room.exits, py_lower p.1 = p.1) :
    (∀ d', py_lower d' = py_lower d → room.get_exit d' = room.get_exit d) ∧
    (∀ t, assocGet room.exits d = some t →
      room.get_exit d = some t ∧ ∀ d', py_lower d' = d → room.get_exit d' = some t) ∧
    (assocGet room.exits (py_lower d) = none →
      room.get_exit d = none ∧
      ∀ gs : GameState, lookupRoom gs.rooms gs.player.location = some room →
        (handle_go gs [d]).1 = gs ∧
        (handle_go gs [d]).2 = [Msg.cantGoThatWay (py_lower d)]) := by
  refine ⟨?_, ?_, ?_⟩
  · intro d' hd'
    unfold Room.get_exit
    rw [hd']
  · intro t ht
    have hkd : py_lower d = d := hkeys (d, t) (assocGet_mem room.exits d t ht)
    constructor
    · unfold Room.get_exit
      rw [hkd]
      exact ht
    · intro d' hd'
      unfold Room.get_exit
      rw [hd']
      exact ht
  · intro hnone
    have hnone' : room.get_exit (py_lower d) = none := by
      unfold Room.get_exit
      rw [py_lower_idem]
      exact hnone
    refine ⟨hnone, ?_⟩
    intro gs hlook
    simp only [handle_go]
    split
    · rename_i heq
      rw [hlook] at heq
      exact Option.noConfusion heq
    · rename_i cur heq
      rw [hlook] at heq
      have hcur : cur = room := (Option.some.inj heq).symm
      subst hcur
      split
      · exact ⟨rfl, rfl⟩
      · rename_i nxt heq2
        rw [hnone'] at heq2
        exact Option.noConfusion heq2

/-- Witness for C5 (amended) at a room with lowercase exit keys. -/
theorem c5_witness :
    foyerRoom.get_exit "north" = some "hallway" ∧
    foyerRoom.get_exit "NoRtH" = some "hallway" ∧
    foyerRoom.get_exit "east" = none ∧
    (handle_go foyerState ["east"]).1 = foyerState :=
  ⟨((c5_get_exit_amended foyerRoom "north" (by decide)).2.1 "hallway" (by decide)).1,
   ((c5_get_exit_amended foyerRoom "north" (by decide)).2.1 "hallway"
     (by decide)).2 "NoRtH" (by decide),
   ((c5_get_exit_amended foyerRoom "east" (by decide)).2.2 (by decide)).1,
   (((c5_get_exit_amended foyerRoom "east" (by decide)).2.2 (by decide)).2
     foyerState (by decide)).1⟩

/-- C6 counterexample: the room stores the item name `Key`
(capitalised), which is present in the player's current room, but
`take Key` lowercases its argument to `key`, finds nothing, leaves
the state unchanged and reports not-here — refuting the claim that
every item present in the room is taken. -/
theorem c6_counterexample :
    capsItemRoom.has_item "Key" = true ∧
    (handle_take capsItemState ["Key"]).1 = capsItemState ∧
    (handle_take capsItemState ["Key"]).2 = [Msg.notHere "key"] := by
  decide

/-- C6 (amended): for an item whose stored name is lowercase, `take`
moves the item present in the current room from the room's items to
the player's inventory; when the item is not present the state is
unchanged and the message distinguishes already-carried from
never-here; a second `take` of the same item after a successful one
reports already-have-it and changes nothing. -/
theorem c6_take_amended (gs : GameState) (room : Room) (i : String) (rest : List String)
    (hl : lookupRoom gs.rooms gs.player.location = some room)
    (hlow : py_lower i = i) :
    (room.has_item i = true →
      (handle_take gs (i :: rest)).1 = takeResult gs room i ∧
      lookupRoom (takeResult gs room i).rooms gs.player.location =
        some { room with items := room.items.erase i } ∧
      (takeResult gs room i).player.inventory = insert i gs.player.inventory ∧
      Msg.pickedUp i ∈ (handle_take gs (i :: rest)).2 ∧
      (handle_take (takeResult gs room i) (i :: rest)).1 = takeResult gs room i ∧
      (handle_take (takeResult gs room i) (i :: rest)).2 = [Msg.alreadyPickedUp i]) ∧
    (room.has_item i = false →
      (handle_take gs (i :: rest)).1 = gs ∧
      (gs.player.has_item i = true →
        (handle_take gs (i :: rest)).2 = [Msg.alreadyPickedUp i]) ∧
      (gs.player.has_item i = false →
        (handle_take gs (i :: rest)).2 = [Msg.notHere i]) ∧
      Msg.alreadyPickedUp i ≠ Msg.notHere i) := by
  constructor
  · intro hhas
    have hlook2 : lookupRoom (takeResult gs room i).rooms
        (takeResult gs room i).player.location =
        some { room with items := room.items.erase i } :=
      lookupRoom_updateRoom_self gs.rooms gs.player.location room _ hl
    have hfirst : (handle_take gs (i :: rest)).1 = takeResult gs room i ∧
        Msg.pickedUp i ∈ (handle_take gs (i :: rest)).2 := by
      simp only [handle_take, hlow]
      split
      · rename_i heq
        rw [hl] at heq
        exact Option.noConfusion heq
      · rename_i cur heq
        rw [hl] at heq
        have hcur : cur = room := (Option.some.inj heq).symm
        subst hcur
        rw [if_neg (by simp [hhas])]
        exact ⟨rfl, List.mem_cons_self _ _⟩
    have hsecond : (handle_take (takeResult gs room i) (i :: rest)).1 =
        takeResult gs room i ∧
        (handle_take (takeResult gs room i) (i :: rest)).2 = [Msg.alreadyPickedUp i] := by
      simp only [handle_take, hlow]
      split
      · rename_i heq
        rw [hlook2] at heq
        exact Option.noConfusion heq
      · rename_i cur heq
        rw [hlook2] at heq
        have hcur : cur = { room with items := room.items.erase i } :=
          (Option.some.inj heq).symm
        subst hcur
        have hnot : ({ room with items := room.items.erase i } : Room).has_item i
            = false := by
          simp [Room.has_item]
        have hcarry : (takeResult gs room i).player.has_item i = true := by
          simp [takeResult, Player.has_item, Player.add_item]
        rw [if_pos (by simp [hnot]), if_pos hcarry]
        exact ⟨rfl, rfl⟩
    exact ⟨hfirst.1, hlook2, rfl, hfirst.2, hsecond.1, hsecond.2⟩
  · intro hhas
    have hmain : (handle_take gs (i :: rest)).1 = gs ∧
        (gs.player.has_item i = true →
          (handle_take gs (i :: rest)).2 = [Msg.alreadyPickedUp i]) ∧
        (gs.player.has_item i = false →
          (handle_take gs (i :: rest)).2 = [Msg.notHere i]) := by
      simp only [handle_take, hlow]
      split
      · rename_i heq
        rw [hl] at heq
        exact Option.noConfusion heq
      · rename_i cur heq
        rw [hl] at heq
        have hcur : cur = room := (Option.some.inj heq).symm
        subst hcur
        rw [if_pos (by simp [hhas])]
        by_cases hc : gs.player.has_item i = true
        · rw [if_pos hc]
          refine ⟨rfl, fun _ => rfl, fun habs => ?_⟩
          rw [hc] at habs
          exact Bool.noConfusion habs
        · rw [if_neg hc]
          refine ⟨rfl, fun habs => absurd habs hc, fun _ => rfl⟩
    exact ⟨hmain.1, hmain.2.1, hmain.2.2, by simp⟩

/-- Witness for C6: taking the flashlight in the foyer moves it, and
a repeated take reports already-picked-up. -/
theorem c6_witness :
    (handle_take foyerState ["flashlight"]).1 = takeResult foyerState foyerRoom "flashlight" ∧
    Msg.pickedUp "flashlight" ∈ (handle_take foyerState ["flashlight"]).2 ∧
    (handle_take (takeResult foyerState foyerRoom "flashlight") ["flashlight"]).2 =
      [Msg.alreadyPickedUp "flashlight"] := by
  have h := (c6_take_amended foyerState foyerRoom "flashlight" [] (by decide)
    (by decide)).1 (by decide)
  exact ⟨h.1, h.2.2.2.1, h.2.2.2.2.2⟩

/-- C7 counterexample: in a freshly built world where two distinct
rooms both contain `key`, the state reached by `take key` has `key`
in the inventory while room `b` still holds it — the claimed
invariant fails for such worlds, because `take` removes the item only
from the current room. -/
theorem c7_counterexample :
    ¬ invInventoryDisjoint (runCmds (initState dupItemWorld) [Cmd.take ["key"]]) := by
  intro h
  exact h "key" (by decide) "b" dupRoomB (by decide) (by decide)

/-- C7 (amended): provided the freshly built world places no item
name in two distinct rooms, every game state reachable through the
command handlers keeps the player's inventory disjoint from every
room's items: `take` moves an item atomically with no duplication and
no loss, and no handler ever adds an item to a room. -/
theorem c7_inventory_disjoint_amended (w : WorldData) (cs : List Cmd)
    (hunique : invItemUnique (initState w)) :
    invInventoryDisjoint (runCmds (initState w) cs) := by
  have h1 : invInventoryDisjoint (initState w) := by
    intro i hi
    exact absurd hi (Finset.not_mem_empty i)
  exact (runCmds_preserves_inv (initState w) cs h1 hunique).1

/-- Witness for C7 (amended): a one-room world with a single key,
after taking the key. -/
theorem c7_witness :
    invInventoryDisjoint (runCmds (initState simpleWorld) [Cmd.take ["key"]]) := by
  apply c7_inventory_disjoint_amended
  intro i n1 r1 n2 r2 h1 h2 _ _
  have hrooms : (initState simpleWorld).rooms =
      [("a", firstPassRoom "a" { items := ["key"] })] := by decide
  rw [hrooms] at h1 h2
  by_cases ha1 : "a" = n1
  · by_cases ha2 : "a" = n2
    · rw [← ha1, ← ha2]
    · simp [lookupRoom, ha2] at h2
  · simp [lookupRoom, ha1] at h1

/-- C9 counterexample: with the world file missing, startup loading
fails but the process exit code is 0 — `run_game` catches the
exception, prints a diagnostic and returns normally, and `main` never
calls `sys.exit` — refuting the claimed non-zero exit code on load
failure. -/
theorem c9_counterexample :
    loadFailed LoadResult.fileNotFound = true ∧
    (run_game LoadResult.fileNotFound).exitCode = 0 := by
  decide

/-- C9 (amended): the process exit code is 0 in every case — graceful
quit, win, and startup load failure alike; exactly when loading fails
(file missing or unparseable, or the start room is empty, missing or
unknown) no Player is created and the command loop never starts. -/
theorem c9_exit_amended (lr : LoadResult) :
    (run_game lr).exitCode = 0 ∧
    (loadFailed lr = true → (run_game lr).playerCreated = false ∧
      (run_game lr).loopStarted = false) ∧
    (loadFailed lr = false → (run_game lr).playerCreated = true ∧
      (run_game lr).loopStarted = true) := by
  cases lr with
  | fileNotFound => exact ⟨rfl, fun _ => ⟨rfl, rfl⟩, fun h => Bool.noConfusion h⟩
  | parseError => exact ⟨rfl, fun _ => ⟨rfl, rfl⟩, fun h => Bool.noConfusion h⟩
  | ok w =>
    by_cases h : w.start_room = "" ∨ lookupRoom (build_rooms w) w.start_room = none
    · refine ⟨?_, ?_, ?_⟩ <;> simp [run_game, loadFailed, h]
    · refine ⟨?_, ?_, ?_⟩ <;> simp [run_game, loadFailed, h]

/-- Witness for C9 (amended) at the missing-file load failure. -/
theorem c9_witness :
    (run_game LoadResult.fileNotFound).playerCreated = false ∧
    (run_game LoadResult.fileNotFound).loopStarted = false :=
  (c9_exit_amended LoadResult.fileNotFound).2.1 (by decide)

/-- C10: a room whose puzzle id does not key into the puzzles mapping
(or maps to an empty definition) is built normally with no puzzle
attached and no error: `build_rooms` yields exactly the first-pass
room, whose puzzle field is `None` — a dangling puzzle reference is
silently ignored rather than failing the load. -/
theorem c10_dangling_puzzle_ignored (w : WorldData) (n : String) (rd : RoomDef)
    (pid : String)
    (hnodup : (w.rooms.map Prod.fst).Nodup)
    (hmem : (n, rd) ∈ w.rooms)
    (hpid : rd.puzzle = some pid) (hpid' : ¬ pid = "")
    (hdangling : lookupPuzzleDef w.puzzles pid = none ∨
      ∃ p, lookupPuzzleDef w.puzzles pid = some p ∧ p.isEmpty = true) :
    lookupRoom (build_rooms w) n = some (firstPassRoom n rd) ∧
    (firstPassRoom n rd).puzzle = none := by
  refine ⟨?_, rfl⟩
  have hpres : ∀ e ∈ w.rooms, ∀ a,
      lookupRoom (attachPuzzle w.puzzles a e) n = lookupRoom a n := by
    intro e he a
    by_cases hne : e.1 = n
    · obtain ⟨e1, e2⟩ := e
      simp only at hne
      have he' : (n, e2) ∈ w.rooms := by
        rw [← hne]
        exact he
      have he2 : e2 = rd := keys_nodup_mem_eq w.rooms n e2 rd hnodup he' hmem
      have : ((e1, e2) : String × RoomDef) = (n, rd) := by
        rw [hne, he2]
      rw [this, attachPuzzle_skip w.puzzles a n rd pid hpid hpid' hdangling]
    · exact attachPuzzle_lookup_ne w.puzzles a e n hne
  calc lookupRoom (build_rooms w) n
      = lookupRoom (w.rooms.map (fun e => (e.1, firstPassRoom e.1 e.2))) n :=
        foldl_attach_lookup w.puzzles w.rooms _ n hpres
    _ = some (firstPassRoom n rd) := lookupRoom_base w.rooms n rd hnodup hmem

/-- Witness for C10: a world with a dangling id `ghost` and an id
`blank` mapping to an empty puzzle definition. -/
theorem c10_witness :
    lookupRoom (build_rooms danglingPuzzleWorld) "study" =
      some (firstPassRoom "study" { description := "Dusty books", puzzle := some "ghost" }) ∧
    lookupRoom (build_rooms danglingPuzzleWorld) "cellar" =
      some (firstPassRoom "cellar" { description := "Damp", puzzle := some "blank" }) :=
  ⟨(c10_dangling_puzzle_ignored danglingPuzzleWorld "study"
      { description := "Dusty books", puzzle := some "ghost" } "ghost"
      (by decide) (by decide) rfl (by decide) (Or.inl (by decide))).1,
   (c10_dangling_puzzle_ignored danglingPuzzleWorld "cellar"
      { description := "Damp", puzzle := some "blank" } "blank"
      (by decide) (by decide) rfl (by decide)
      (Or.inr ⟨{}, by decide, by decide⟩)).1⟩
